import Mathlib

/-
Verification of the tab-classification engine of Project Rail Tabs.

The development shallowly embeds the classification core:
tokenization and centroid similarity (src/utils/tokens.ts), URL helpers
(src/utils/url.ts), the weighted scorer and candidate narrowing
(classifier/matcher.ts), the rolling context tracker
(classifier/context.ts) and the assignment orchestrator (core.ts).

Conventions of the embedding:
- JavaScript numbers are modelled exactly: rational arithmetic uses the
  rationals, and the square root inside the cosine similarity uses the
  real square root, so similarity values and total scores live in the
  reals.
- Timestamps (Date.now values, milliseconds) are rationals passed
  explicitly as a `now` parameter wherever the source calls Date.now().
- A JavaScript Map from token to weight is modelled as an association
  list updated in place, mirroring Map.get / Map.set; Map iteration
  visits the entries of the list in order.
- JavaScript string operations are modelled on the character list of
  the string (split, startsWith, join, toLowerCase).
- The IndexedDB store and the per-window context cache are modelled as
  an explicit state record threaded through the orchestrator; the
  random components of generated ids are supplied as parameters.
-/

namespace ProjectRail

/-! ### String helpers (models of the JavaScript string operations) -/

/-- Model of JavaScript `s.split(sep)` for a single-character separator. -/
def jsSplit (sep : Char) (s : String) : List String :=
  (List.splitOn sep s.data).map String.mk

/-- Model of JavaScript `parts.join(sep)` for a single-character separator. -/
def jsJoin (sep : Char) (parts : List String) : String :=
  String.mk (List.intercalate [sep] (parts.map String.data))

/-- Model of JavaScript `s.startsWith(p)`. -/
def jsStartsWith (s p : String) : Bool :=
  p.data.isPrefixOf s.data

/-- The empty string, named so that default respectively falsy values
read uniformly. -/
def emptyString : String := ""

/-- The leading label stripped from project names. -/
def wwwDot : String := "www."

/-- Model of JavaScript `s.toLowerCase()` (ASCII-faithful). -/
def jsToLower (s : String) : String :=
  String.mk (s.data.map Char.toLower)

/-- Model of `host.split('.').slice(-2).join('.')` from matcher.ts:
the registrable domain, i.e. the last two dot-separated labels. -/
def lastTwoLabels (host : String) : String :=
  let parts := jsSplit '.' host
  jsJoin '.' (parts.drop (parts.length - 2))

/-! ### Tokenizer (src/utils/tokens.ts) -/

/-- The fixed stop-word set of tokens.ts. -/
def stopWords : List String :=
  ["the", "a", "an", "and", "or", "but", "in", "on", "at", "to", "for",
   "of", "with", "by", "from", "as", "is", "was", "are", "been", "be",
   "have", "has", "had", "do", "does", "did", "will", "would", "should",
   "can", "could", "may", "might", "must", "that", "this", "these", "those"]

/-- Model of the regex class `\w`: word characters A-Z, a-z, 0-9 and underscore. -/
def isWordChar (c : Char) : Bool :=
  c.isAlpha || c.isDigit || c = '_'

/-- extractTokens: lowercase, replace every character outside word
characters, whitespace and hyphen by a space, split on whitespace and
hyphens, and keep tokens longer than 2 characters that are not stop words. -/
def extractTokens (text : String) : List String :=
  let lowered := (jsToLower text).data
  let cleaned := lowered.map (fun c => if isWordChar c || c.isWhitespace || c = '-' then c else ' ')
  let parts := (List.splitOnP (fun c => c.isWhitespace || c = '-') cleaned).map String.mk
  parts.filter (fun t => decide (2 < t.data.length) && !(stopWords.contains t))

/-- The optional-field input record of tokenize. The url field is accepted
by the source but never read. -/
structure TokenizeInput where
  url : Option String := none
  title : Option String := none
  h1 : Option String := none
  meta : Option String := none
  host : Option String := none
  pathTokens : Option (List String) := none

/-- tokenize: host labels longer than 2 characters (not stop-word
filtered), then extractTokens applied to each path token, the title, the
heading and the meta description, in source order. -/
def tokenize (input : TokenizeInput) : List String :=
  (match input.host with
   | some h => (jsSplit '.' h).filter (fun t => decide (2 < t.data.length))
   | none => []) ++
  (match input.pathTokens with
   | some pts => (pts.map extractTokens).flatten
   | none => []) ++
  (match input.title with
   | some t => extractTokens t
   | none => []) ++
  (match input.h1 with
   | some t => extractTokens t
   | none => []) ++
  (match input.meta with
   | some t => extractTokens t
   | none => [])

/-! ### Token centroid (src/utils/tokens.ts) -/

/-- Association-list model of the JavaScript Map from token to weight. -/
abbrev TokenMap := List (String × ℚ)

/-- Model of `map.get(k)`. -/
def mapFind : TokenMap → String → Option ℚ
  | [], _ => none
  | (k, v) :: rest, key => if k = key then some v else mapFind rest key

/-- Model of `map.get(k) || 0`. -/
def mapGetD (m : TokenMap) (k : String) : ℚ :=
  (mapFind m k).getD 0

/-- Model of `map.set(k, v)`: overwrite the entry in place, or append a
new entry (JavaScript Map preserves insertion order). -/
def mapSet : TokenMap → String → ℚ → TokenMap
  | [], k, v => [(k, v)]
  | (k', v') :: rest, k, v =>
      if k' = k then (k, v) :: rest else (k', v') :: mapSet rest k v

/-- TokenCentroid: token-to-weight mapping plus a running total weight. -/
structure TokenCentroid where
  tokens : TokenMap
  totalWeight : ℚ

/-- createCentroid: accumulate, per input list, its weight (default 1) for
every token occurrence; totalWeight sums all added weights. -/
def createCentroid (tokenArrays : List (List String)) (weights : Option (List ℚ)) :
    TokenCentroid :=
  let wOf : ℕ → ℚ := fun idx =>
    match weights with
    | some ws => ws.getD idx 1
    | none => 1
  let acc := tokenArrays.enum.foldl
    (fun (acc : TokenMap × ℚ) (iw : ℕ × List String) =>
      iw.2.foldl
        (fun (a : TokenMap × ℚ) (t : String) =>
          (mapSet a.1 t (mapGetD a.1 t + wOf iw.1), a.2 + wOf iw.1))
        acc)
    ([], 0)
  { tokens := acc.1, totalWeight := acc.2 }

/-- updateCentroid: a fresh map with `weight` added for every occurrence
of each token of the list; totalWeight grows by weight times list length. -/
def updateCentroid (centroid : TokenCentroid) (tokens : List String) (weight : ℚ) :
    TokenCentroid :=
  { tokens := tokens.foldl (fun m t => mapSet m t (mapGetD m t + weight)) centroid.tokens,
    totalWeight := centroid.totalWeight + weight * tokens.length }

/-- The dot product accumulated by cosineSimilarity: for every map entry
whose token is in the incoming token set, add its weight. -/
def dotSum (m : TokenMap) (tokens : List String) : ℚ :=
  (m.map (fun p => if p.1 ∈ tokens then p.2 else 0)).sum

/-- The squared centroid magnitude accumulated by cosineSimilarity. -/
def sqSum (m : TokenMap) : ℚ :=
  (m.map (fun p => p.2 * p.2)).sum

/-- cosineSimilarity: dot product of the centroid weights against unit
weights of the incoming token set, normalized by the Euclidean norm of
the centroid and the square root of the token count. -/
noncomputable def cosineSimilarity (centroid : TokenCentroid) (tokens : List String) : ℝ :=
  if centroid.tokens.length = 0 ∨ tokens.length = 0 then 0
  else
    let dotProduct : ℚ := dotSum centroid.tokens tokens
    let centroidMag : ℝ := Real.sqrt ((sqSum centroid.tokens : ℚ) : ℝ)
    let tokenMag : ℝ := Real.sqrt (tokens.length : ℝ)
    if centroidMag = 0 ∨ tokenMag = 0 then 0
    else (dotProduct : ℝ) / (centroidMag * tokenMag)

/-- jaccardSimilarity: overlap of the centroid key set with the incoming
token set, as size(intersection) / (centroid keys + set size - intersection). -/
def jaccardSimilarity (centroid : TokenCentroid) (tokens : List String) : ℚ :=
  if centroid.tokens.length = 0 ∨ tokens.length = 0 then 0
  else
    let inter : ℕ := (centroid.tokens.filter (fun p => decide (p.1 ∈ tokens))).length
    let union : ℚ := (centroid.tokens.length : ℚ) + (tokens.dedup.length : ℚ) - (inter : ℚ)
    if union = 0 then 0 else (inter : ℚ) / union

/-- weightedTokenSimilarity: the fixed blend 0.6 cosine + 0.4 jaccard. -/
noncomputable def weightedTokenSimilarity (centroid : TokenCentroid) (tokens : List String) : ℝ :=
  0.6 * cosineSimilarity centroid tokens + 0.4 * ((jaccardSimilarity centroid tokens : ℚ) : ℝ)

/-! ### Data model (types.ts) -/

/-- The tagged variants of ProjectRule. The path-prefix variant is named
prefixRule here. -/
inductive RuleType where
  | domain
  | host
  | prefixRule
  | kwInclude
  | kwExclude
deriving DecidableEq

/-- ProjectRule: a tagged matcher with a value and weight. -/
structure ProjectRule where
  type : RuleType
  value : String
  weight : ℚ

/-- SubprojectSignature: host, path-prefix string and centroid. The
path-prefix field is named prefixPath here. -/
structure SubprojectSignature where
  host : String
  prefixPath : String
  tokenCentroid : TokenCentroid

/-- Subproject record. -/
structure Subproject where
  subprojectId : String
  name : String
  signature : SubprojectSignature
  rules : List ProjectRule
  createdAt : ℚ
  lastActiveAt : ℚ

/-- Project record. -/
structure Project where
  projectId : String
  name : String
  color : String
  pinned : Bool
  createdAt : ℚ
  lastActiveAt : ℚ
  activeScore : ℚ
  centroid : TokenCentroid
  rules : List ProjectRule
  subprojects : List Subproject
  locked : Bool := false

/-- PageSignals record. -/
structure PageSignals where
  h1 : Option String := none
  metaDescription : Option String := none
  ogTitle : Option String := none
  extractedAt : ℚ

/-- TabMeta record. An absent optional boolean is modelled as false. -/
structure TabMeta where
  tabId : ℕ
  windowId : ℕ
  url : String
  title : String
  host : String
  pathTokens : List String
  queryKeys : List String
  pageSignals : Option PageSignals := none
  createdAt : ℚ
  lastActiveAt : ℚ
  activeScore : ℚ
  projectId : Option String := none
  subprojectId : Option String := none
  featuresHash : String := ""
  openerTabId : Option ℕ := none
  manuallyAssigned : Bool := false

/-- RecentTabActivity entry of an ActiveContext. -/
structure RecentTabActivity where
  tabId : ℕ
  projectId : Option String
  subprojectId : Option String
  lastActiveAt : ℚ
  dwellTime : ℚ
  weight : ℚ

/-- ActiveContext snapshot. -/
structure ActiveContext where
  windowId : ℕ
  activeProjectId : Option String
  activeSubprojectId : Option String
  recentTabs : List RecentTabActivity
  computedAt : ℚ

/-- The method tag of a TabAssignment. -/
inductive AssignMethod where
  | deterministic
  | semantic
  | context
  | manual
  | default
deriving DecidableEq

/-- TabAssignment decision record. -/
structure TabAssignment where
  tabId : ℕ
  projectId : String
  subprojectId : Option String
  confidence : ℝ
  method : AssignMethod

/-- The five-way score breakdown of a ScoringResult. Only the token
similarity is irrational-valued. -/
structure ScoreBreakdown where
  hostMatch : ℚ
  pathMatch : ℚ
  tokenSimilarity : ℝ
  chainProximity : ℚ
  recencyBoost : ℚ

/-- ScoringResult of one candidate project. -/
structure ScoringResult where
  projectId : String
  subprojectId : Option String
  score : ℝ
  breakdown : ScoreBreakdown

/-! ### URL helpers (src/utils/url.ts) -/

/-- getPathPrefix: the first `depth` path tokens joined with a slash. -/
def getPrefixPath (pathTokens : List String) (depth : ℕ) : String :=
  jsJoin '/' (pathTokens.take depth)

/-- createSubprojectKey: `host:prefix` at the given depth. -/
def createSubprojectKey (host : String) (pathTokens : List String) (depth : ℕ) : String :=
  host ++ ":" ++ getPrefixPath pathTokens depth

/-! ### Matcher / scorer (classifier/matcher.ts) -/

/-- MatcherConfig: the five sub-score weights and the minimum threshold. -/
structure MatcherConfig where
  hostMatchWeight : ℝ
  pathMatchWeight : ℝ
  chainWeight : ℝ
  tokenWeight : ℝ
  recencyWeight : ℝ
  minThreshold : ℝ

/-- DEFAULT_MATCHER_CONFIG. -/
def defaultMatcherConfig : MatcherConfig :=
  { hostMatchWeight := 3.0
    pathMatchWeight := 2.0
    chainWeight := 2.0
    tokenWeight := 1.5
    recencyWeight := 1.0
    minThreshold := 0.3 }

/-- The rule loop of scoreHostMatch: the first rule that matches decides
(1.0 for an exact host rule, 0.8 for a domain rule on the registrable
domain); none if no rule matches. -/
def hostMatchLoop (host : String) : List ProjectRule → Option ℚ
  | [] => none
  | r :: rest =>
      if r.type = RuleType.host ∧ host = r.value then some 1.0
      else if r.type = RuleType.domain ∧ lastTwoLabels host = r.value then some 0.8
      else hostMatchLoop host rest

/-- scoreHostMatch: rule loop first, then 0.9 for any subproject whose
signature host equals the tab host, else 0. -/
def scoreHostMatch (tab : TabMeta) (project : Project) : ℚ :=
  match hostMatchLoop tab.host project.rules with
  | some v => v
  | none =>
      if project.subprojects.any (fun sp => decide (sp.signature.host = tab.host)) then 0.9
      else 0

/-- The joined path `tab.pathTokens.join('/')`. -/
def joinedPath (tab : TabMeta) : String :=
  jsJoin '/' tab.pathTokens

/-- The per-match path score `min(1.0, depth * 0.25)` where depth is the
number of slash-separated parts of the prefix value. -/
def prefixDepthScore (value : String) : ℚ :=
  min 1.0 (((jsSplit '/' value).length : ℚ) * 0.25)

/-- scorePathMatch: maximum of the prefix-depth scores over all matching
path-prefix rules and all matching subproject path prefixes, starting at 0. -/
def scorePathMatch (tab : TabMeta) (project : Project) : ℚ :=
  let tabPath := joinedPath tab
  let fromRules := project.rules.foldl
    (fun acc r =>
      if r.type = RuleType.prefixRule ∧ jsStartsWith tabPath r.value then
        max acc (prefixDepthScore r.value)
      else acc)
    0
  project.subprojects.foldl
    (fun acc sp =>
      if jsStartsWith tabPath sp.signature.prefixPath then
        max acc (prefixDepthScore sp.signature.prefixPath)
      else acc)
    fromRules

/-- The token list the scorer extracts from a tab: host, path, title and
the optional page signals. -/
def tabScoringTokens (tab : TabMeta) : List String :=
  tokenize
    { host := some tab.host
      pathTokens := some tab.pathTokens
      title := some tab.title
      h1 := tab.pageSignals.bind (fun s => s.h1)
      meta := tab.pageSignals.bind (fun s => s.metaDescription) }

/-- scoreTokenSimilarity: weighted similarity of the project centroid
against the tab tokens. -/
noncomputable def scoreTokenSimilarity (tab : TabMeta) (project : Project) : ℝ :=
  weightedTokenSimilarity project.centroid (tabScoringTokens tab)

/-- scoreChainProximity: 1.0 for the active project of the context, else
0.8 times the weight of a matching recent-tab entry, else 0; 0 with no
context. -/
def scoreChainProximity (tab : TabMeta) (project : Project)
    (context : Option ActiveContext) : ℚ :=
  match context with
  | none => 0
  | some ctx =>
      if ctx.activeProjectId = some project.projectId then 1.0
      else
        match ctx.recentTabs.find? (fun rt => decide (rt.projectId = some project.projectId)) with
        | some rt => rt.weight * 0.8
        | none => 0

/-- scoreRecencyBoost: 1.0 for the active project, else a step function of
minutes since the project was last active; 0 with no context. -/
def scoreRecencyBoost (project : Project) (context : Option ActiveContext) (now : ℚ) : ℚ :=
  match context with
  | none => 0
  | some ctx =>
      if ctx.activeProjectId = some project.projectId then 1.0
      else
        let minutes := (now - project.lastActiveAt) / (1000 * 60)
        if minutes < 5 then 0.9
        else if minutes < 15 then 0.6
        else if minutes < 30 then 0.3
        else 0

/-- The token list findBestSubproject extracts (host, path, title only). -/
def tabSubprojectTokens (tab : TabMeta) : List String :=
  tokenize
    { host := some tab.host
      pathTokens := some tab.pathTokens
      title := some tab.title }

/-- The per-subproject score of the findBestSubproject loop. -/
noncomputable def subprojectScore (tab : TabMeta) (tabTokens : List String)
    (sp : Subproject) : ℝ :=
  (if sp.signature.host = tab.host then (0.5 : ℝ) else 0) +
  (if jsStartsWith (joinedPath tab) sp.signature.prefixPath then (0.3 : ℝ) else 0) +
  weightedTokenSimilarity sp.signature.tokenCentroid tabTokens * 0.2

/-- The best-candidate loop of findBestSubproject: fold keeping the first
strict improver, starting from the first subproject at score -1. -/
noncomputable def bestSubprojectLoop (tab : TabMeta) (tabTokens : List String) :
    List Subproject → Subproject → ℝ → Subproject × ℝ
  | [], best, bestScore => (best, bestScore)
  | sp :: rest, best, bestScore =>
      let score := subprojectScore tab tabTokens sp
      if bestScore < score then bestSubprojectLoop tab tabTokens rest sp score
      else bestSubprojectLoop tab tabTokens rest best bestScore

/-- findBestSubproject: none when the project has no subprojects; an exact
host-and-prefix key match wins outright; otherwise the loop maximum, kept
only when its score exceeds 0.3. -/
noncomputable def findBestSubproject (tab : TabMeta) (project : Project) : Option Subproject :=
  match project.subprojects with
  | [] => none
  | sp0 :: rest =>
      let subprojectKey := createSubprojectKey tab.host tab.pathTokens 2
      match (sp0 :: rest).find?
          (fun sp => decide (sp.signature.host ++ ":" ++ sp.signature.prefixPath = subprojectKey)) with
      | some exact => some exact
      | none =>
          let tabTokens := tabSubprojectTokens tab
          let result := bestSubprojectLoop tab tabTokens (sp0 :: rest) sp0 (-1)
          if (0.3 : ℝ) < result.2 then some result.1 else none

/-- scoreTabForProject: the five sub-scores, their weighted sum, and the
resolved subproject. -/
noncomputable def scoreTabForProject (config : MatcherConfig) (tab : TabMeta)
    (project : Project) (context : Option ActiveContext) (now : ℚ) : ScoringResult :=
  let breakdown : ScoreBreakdown :=
    { hostMatch := scoreHostMatch tab project
      pathMatch := scorePathMatch tab project
      tokenSimilarity := scoreTokenSimilarity tab project
      chainProximity := scoreChainProximity tab project context
      recencyBoost := scoreRecencyBoost project context now }
  let score : ℝ :=
    config.hostMatchWeight * (breakdown.hostMatch : ℝ) +
    config.pathMatchWeight * (breakdown.pathMatch : ℝ) +
    config.tokenWeight * breakdown.tokenSimilarity +
    config.chainWeight * (breakdown.chainProximity : ℝ) +
    config.recencyWeight * (breakdown.recencyBoost : ℝ)
  { projectId := project.projectId
    subprojectId := (findBestSubproject tab project).map (fun sp => sp.subprojectId)
    score := score
    breakdown := breakdown }

/-- scoreAllProjects: score every candidate, keep results at or above the
minimum threshold, sort descending by total score (stable merge sort,
matching the stable JavaScript Array.sort). -/
noncomputable def scoreAllProjects (config : MatcherConfig) (tab : TabMeta)
    (projects : List Project) (context : Option ActiveContext) (now : ℚ) :
    List ScoringResult :=
  ((projects.map (fun p => scoreTabForProject config tab p context now)).filter
      (fun r => decide (config.minThreshold ≤ r.score))).mergeSort
    (fun a b => decide (b.score ≤ a.score))

/-- Stage-1 narrowing predicate: a subproject signature host equal to the
tab host, or a host rule equal to the tab host. -/
def sameHostPred (tab : TabMeta) (p : Project) : Bool :=
  p.subprojects.any (fun sp => decide (sp.signature.host = tab.host)) ||
  p.rules.any (fun r => decide (r.type = RuleType.host ∧ r.value = tab.host))

/-- Stage-2 narrowing predicate: a domain rule equal to the registrable
domain of the tab host. -/
def sameDomainPred (tab : TabMeta) (p : Project) : Bool :=
  p.rules.any (fun r => decide (r.type = RuleType.domain ∧ r.value = lastTwoLabels tab.host))

/-- Stage-3 narrowing predicate: last active within the last 30 minutes. -/
def recentPred (now : ℚ) (p : Project) : Bool :=
  decide (now - p.lastActiveAt < 30 * 60 * 1000)

/-- narrowCandidates: same-host projects; else same-domain projects; else
the projects active in the last 30 minutes, most recent first, capped at
15; else the first 20 projects. -/
def narrowCandidates (tab : TabMeta) (projects : List Project) (now : ℚ) : List Project :=
  let sameHostProjects := projects.filter (sameHostPred tab)
  if sameHostProjects.length > 0 then sameHostProjects
  else
    let sameDomainProjects := projects.filter (sameDomainPred tab)
    if sameDomainProjects.length > 0 then sameDomainProjects
    else
      let recentProjects :=
        ((projects.filter (recentPred now)).mergeSort
          (fun a b => decide (b.lastActiveAt ≤ a.lastActiveAt))).take 15
      if recentProjects.length > 0 then recentProjects else projects.take 20

/-- getBestMatch: narrow, score, take the top result or none. -/
noncomputable def getBestMatch (config : MatcherConfig) (tab : TabMeta)
    (projects : List Project) (context : Option ActiveContext) (now : ℚ) :
    Option ScoringResult :=
  (scoreAllProjects config tab (narrowCandidates tab projects now) context now).head?

/-! ### Context tracker (classifier/context.ts) -/

/-- CONTEXT_WINDOW_MS: the 30-minute rolling window in milliseconds. -/
def contextWindowMs : ℚ := 30 * 60 * 1000

/-- The RecentTabActivity entry updateContext builds for one tab. -/
def recentActivityOf (now : ℚ) (tab : TabMeta) : RecentTabActivity :=
  let recencyScore := 1 - (now - tab.lastActiveAt) / contextWindowMs
  let dwellScore := min 1 (tab.activeScore / 60000)
  { tabId := tab.tabId
    projectId := tab.projectId
    subprojectId := tab.subprojectId
    lastActiveAt := tab.lastActiveAt
    dwellTime := tab.activeScore
    weight := 0.7 * dwellScore + 0.3 * recencyScore }

/-- updateContext, as a pure function of the tabs of the window: filter to
the rolling window, weight each retained tab, sort descending by weight,
and take the active ids from the just-activated tab. -/
def updateContextPure (windowTabs : List TabMeta) (windowId : ℕ)
    (activatedTab : TabMeta) (now : ℚ) : ActiveContext :=
  let recentTabs :=
    ((windowTabs.filter (fun t => decide (now - t.lastActiveAt < contextWindowMs))).map
        (recentActivityOf now)).mergeSort
      (fun a b => decide (b.weight ≤ a.weight))
  { windowId := windowId
    activeProjectId := activatedTab.projectId
    activeSubprojectId := activatedTab.subprojectId
    recentTabs := recentTabs
    computedAt := now }

/-! ### Store and orchestrator state (storage/db.ts, core.ts) -/

/-- The state the orchestrator touches: the stored tabs and projects and
the per-window context cache. -/
structure SysState where
  tabs : List TabMeta
  projects : List Project
  contexts : List (ℕ × ActiveContext)

/-- db.getTabsByWindow. -/
def getTabsByWindow (s : SysState) (windowId : ℕ) : List TabMeta :=
  s.tabs.filter (fun t => decide (t.windowId = windowId))

/-- db.putTab: keyed upsert by tabId. -/
def putTab (s : SysState) (tab : TabMeta) : SysState :=
  if s.tabs.any (fun t => decide (t.tabId = tab.tabId)) then
    { s with tabs := s.tabs.map (fun t => if t.tabId = tab.tabId then tab else t) }
  else
    { s with tabs := s.tabs ++ [tab] }

/-- db.putProject: keyed upsert by projectId. -/
def putProject (s : SysState) (project : Project) : SysState :=
  if s.projects.any (fun p => decide (p.projectId = project.projectId)) then
    { s with projects :=
        s.projects.map (fun p => if p.projectId = project.projectId then project else p) }
  else
    { s with projects := s.projects ++ [project] }

/-- db.getProject. -/
def getProject (s : SysState) (projectId : String) : Option Project :=
  s.projects.find? (fun p => decide (p.projectId = projectId))

/-- The Map.set of the per-window context cache. -/
def setContext (cache : List (ℕ × ActiveContext)) (windowId : ℕ) (ctx : ActiveContext) :
    List (ℕ × ActiveContext) :=
  if cache.any (fun e => decide (e.1 = windowId)) then
    cache.map (fun e => if e.1 = windowId then (windowId, ctx) else e)
  else
    cache ++ [(windowId, ctx)]

/-- contextTracker.updateContext against the state: read the tabs of the
window, compute the snapshot, store it in the cache. -/
def updateContextState (s : SysState) (windowId : ℕ) (activatedTab : TabMeta) (now : ℚ) :
    ActiveContext × SysState :=
  let ctx := updateContextPure (getTabsByWindow s windowId) windowId activatedTab now
  (ctx, { s with contexts := setContext s.contexts windowId ctx })

/-- The ten-color palette of createProjectForTab. -/
def projectColors : List String :=
  ["#ef4444", "#f97316", "#f59e0b", "#84cc16", "#10b981",
   "#06b6d4", "#3b82f6", "#6366f1", "#8b5cf6", "#ec4899"]

/-- The random components of the generated project and subproject ids,
supplied as parameters of the embedding. -/
structure FreshIds where
  projectId : String
  subprojectId : String

/-- Model of `host.replace(/^www\./, '')`. -/
def stripWww (host : String) : String :=
  if jsStartsWith host wwwDot then String.mk (host.data.drop 4) else host

/-- createProjectForTab: centroid seeded from the tab tokens, one
subproject at path depth 2 (name falling back to the host when the joined
prefix is empty), one host rule at weight 1.0, round-robin color by
current project count, name equal to the host with a leading www.
stripped. -/
def createProjectForTab (s : SysState) (tab : TabMeta) (now : ℚ) (ids : FreshIds) :
    Project × SysState :=
  let tokens := tokenize
    { host := some tab.host, pathTokens := some tab.pathTokens, title := some tab.title }
  let centroid := createCentroid [tokens] none
  let joined := jsJoin '/' (tab.pathTokens.take 2)
  let subproject : Subproject :=
    { subprojectId := ids.subprojectId
      name := if joined = "" then tab.host else joined
      signature := { host := tab.host, prefixPath := joined, tokenCentroid := centroid }
      rules := []
      createdAt := now
      lastActiveAt := now }
  let colorIndex := s.projects.length % projectColors.length
  let project : Project :=
    { projectId := ids.projectId
      name := stripWww tab.host
      color := projectColors.getD colorIndex emptyString
      pinned := false
      createdAt := now
      lastActiveAt := now
      activeScore := 0
      centroid := centroid
      rules := [{ type := RuleType.host, value := tab.host, weight := 1.0 }]
      subprojects := [subproject] }
  (project, putProject s project)

/-- updateProjectCentroid: feed the tab tokens (with the page heading)
into the project centroid at weight 0.1 and into the centroid of the
resolved subproject at weight 0.2, touching that subproject timestamp. -/
def updateProjectCentroid (s : SysState) (project : Project) (tab : TabMeta) (now : ℚ) :
    SysState :=
  let tokens := tokenize
    { host := some tab.host
      pathTokens := some tab.pathTokens
      title := some tab.title
      h1 := tab.pageSignals.bind (fun ps => ps.h1) }
  let updated :=
    { project with
        centroid := updateCentroid project.centroid tokens 0.1
        subprojects := project.subprojects.map (fun sp =>
          if some sp.subprojectId = tab.subprojectId then
            { sp with
                signature :=
                  { sp.signature with
                      tokenCentroid := updateCentroid sp.signature.tokenCentroid tokens 0.2 }
                lastActiveAt := now }
          else sp) }
  putProject s updated

/-- JavaScript truthiness of an optional string: present and non-empty. -/
def truthyStr : Option String → Bool
  | some s => decide (s ≠ "")
  | none => false

/-- assignTabToProject: manual short-circuit; bootstrap creation on an
empty project universe; otherwise compute the context, take the best
match, commit above 0.5 (deterministic above 0.8, else semantic) with the
feedback updates, or create a new project as the default. -/
noncomputable def assignTabToProject (s : SysState) (tab : TabMeta) (windowId : ℕ)
    (now : ℚ) (ids : FreshIds) : TabAssignment × SysState :=
  if tab.manuallyAssigned && truthyStr tab.projectId then
    ({ tabId := tab.tabId
       projectId := tab.projectId.getD emptyString
       subprojectId := tab.subprojectId
       confidence := 1.0
       method := AssignMethod.manual }, s)
  else if s.projects.length = 0 then
    let created := createProjectForTab s tab now ids
    let newProject := created.1
    let tabAssigned :=
      { tab with
          projectId := some newProject.projectId
          subprojectId := (newProject.subprojects.head?).map (fun sp => sp.subprojectId) }
    let s2 := putTab created.2 tabAssigned
    ({ tabId := tab.tabId
       projectId := newProject.projectId
       subprojectId := tabAssigned.subprojectId
       confidence := 1.0
       method := AssignMethod.default }, s2)
  else
    let ctxPair := updateContextState s windowId tab now
    let context := ctxPair.1
    let s1 := ctxPair.2
    match getBestMatch defaultMatcherConfig tab s.projects (some context) now with
    | some bestMatch =>
        if (0.5 : ℝ) < bestMatch.score then
          let tabAssigned :=
            { tab with
                projectId := some bestMatch.projectId
                subprojectId := bestMatch.subprojectId }
          let s2 := putTab s1 tabAssigned
          let s3 :=
            match getProject s2 bestMatch.projectId with
            | some project =>
                updateProjectCentroid s2 { project with lastActiveAt := now } tabAssigned now
            | none => s2
          ({ tabId := tab.tabId
             projectId := bestMatch.projectId
             subprojectId := bestMatch.subprojectId
             confidence := bestMatch.score
             method :=
               if (0.8 : ℝ) < bestMatch.score then AssignMethod.deterministic
               else AssignMethod.semantic }, s3)
        else
          let created := createProjectForTab s1 tab now ids
          let newProject := created.1
          let tabAssigned :=
            { tab with
                projectId := some newProject.projectId
                subprojectId := (newProject.subprojects.head?).map (fun sp => sp.subprojectId) }
          let s2 := putTab created.2 tabAssigned
          ({ tabId := tab.tabId
             projectId := newProject.projectId
             subprojectId := tabAssigned.subprojectId
             confidence := 1.0
             method := AssignMethod.default }, s2)
    | none =>
        let created := createProjectForTab s1 tab now ids
        let newProject := created.1
        let tabAssigned :=
          { tab with
              projectId := some newProject.projectId
              subprojectId := (newProject.subprojects.head?).map (fun sp => sp.subprojectId) }
        let s2 := putTab created.2 tabAssigned
        ({ tabId := tab.tabId
           projectId := newProject.projectId
           subprojectId := tabAssigned.subprojectId
           confidence := 1.0
           method := AssignMethod.default }, s2)

/-! ### Concrete fixtures used by witnesses and counterexamples -/

/-- An empty centroid (fresh project with no accumulated tokens). -/
def emptyCentroid : TokenCentroid :=
  { tokens := [], totalWeight := 0 }

/-- A reference clock reading used by the concrete scenarios. -/
def nowA : ℚ := 10000000

/-- A github tab with no prior assignment. -/
def tabA : TabMeta :=
  { tabId := 1
    windowId := 1
    url := "https://github.com/org/repo"
    title := ""
    host := "github.com"
    pathTokens := ["org", "repo"]
    queryKeys := []
    createdAt := 0
    lastActiveAt := 0
    activeScore := 0 }

/-- A project holding one exact host rule for github.com, an empty
centroid, no subprojects, last active exactly 30 minutes before nowA. -/
def projA : Project :=
  { projectId := "p1"
    name := "github.com"
    color := "#ef4444"
    pinned := false
    createdAt := 0
    lastActiveAt := 8200000
    activeScore := 0
    centroid := emptyCentroid
    rules := [{ type := RuleType.host, value := "github.com", weight := 1.0 }]
    subprojects := [] }

/-- A project whose rule list places a matching domain rule before the
matching exact host rule. -/
def projShadowed : Project :=
  { projA with
      projectId := "p2"
      rules := [{ type := RuleType.domain, value := "github.com", weight := 1.0 },
                { type := RuleType.host, value := "github.com", weight := 1.0 }] }

/-- The project id of the manual-assignment scenario. -/
def pidP1 : String := "p1"

/-- The subproject id of the manual-assignment scenario. -/
def sidS1 : String := "s1"

/-- A manually assigned tab. -/
def tabManual : TabMeta :=
  { tabA with
      tabId := 7
      manuallyAssigned := true
      projectId := some pidP1
      subprojectId := some sidS1 }

/-- An empty store state. -/
def stateA : SysState :=
  { tabs := [], projects := [], contexts := [] }

/-- A store state holding only projA. -/
def stateB : SysState :=
  { tabs := [], projects := [projA], contexts := [] }

/-- Fresh id components for project creation. -/
def idsA : FreshIds :=
  { projectId := "proj_new", subprojectId := "sub_new" }

/-- The tab of the context-tracker scenario: 1 second since last active,
30 seconds of accumulated dwell. -/
def tabW : TabMeta :=
  { tabA with
      tabId := 9
      lastActiveAt := 9999000
      activeScore := 30000 }

/-- A store state holding only tabW. -/
def stateW : SysState :=
  { tabs := [tabW], projects := [], contexts := [] }

/-- The tab of the threshold-boundary scenario. -/
def c2Tab : TabMeta :=
  { tabId := 2
    windowId := 1
    url := "https://example.com/"
    title := ""
    host := "example.com"
    pathTokens := []
    queryKeys := []
    createdAt := 0
    lastActiveAt := 0
    activeScore := 0 }

/-- A ruleless, subproject-free project with an empty centroid, last
active 20 minutes before c2Now. -/
def c2Proj : Project :=
  { projectId := "q1"
    name := "q"
    color := ""
    pinned := false
    createdAt := 0
    lastActiveAt := 0
    activeScore := 0
    centroid := emptyCentroid
    rules := []
    subprojects := [] }

/-- The clock reading of the threshold-boundary scenario: 20 minutes. -/
def c2Now : ℚ := 20 * 60 * 1000

/-- A context naming no active project, with no recent tabs. -/
def c2Ctx : ActiveContext :=
  { windowId := 1
    activeProjectId := none
    activeSubprojectId := none
    recentTabs := []
    computedAt := c2Now }

/-- A one-entry centroid with positive weight, for the similarity witness. -/
def centW : TokenCentroid :=
  { tokens := [("alpha", 2)], totalWeight := 2 }

/-- The context computed for the deterministic-assignment scenario: no
window tabs, activated tab unassigned. -/
def ctxB : ActiveContext :=
  { windowId := 1
    activeProjectId := none
    activeSubprojectId := none
    recentTabs := []
    computedAt := nowA }

/-! ### Derived observations on the data model -/

/-- The weight a centroid assigns to a token (0 when absent), the
observable content of the Map. -/
def weightAt (c : TokenCentroid) (t : String) : ℚ :=
  mapGetD c.tokens t

/-- Well-formedness of a centroid as produced by the Map-based code:
unique keys and non-negative accumulated weights (the data-model
invariant of TokenCentroid). -/
def centroidWF (c : TokenCentroid) : Prop :=
  (c.tokens.map Prod.fst).Nodup ∧ ∀ p ∈ c.tokens, 0 ≤ p.2

/-- Well-formedness of a project: its centroid and all subproject
centroids are well-formed. -/
def projectWF (p : Project) : Prop :=
  centroidWF p.centroid ∧ ∀ sp ∈ p.subprojects, centroidWF sp.signature.tokenCentroid

/-! ### Generic list lemmas -/

/-- A duplicate-free list contained in another list is no longer than a
duplicate-free superlist; stated for lists of strings. -/
theorem nodup_subset_length_le {l1 l2 : List String} (h1 : l1.Nodup)
    (hsub : ∀ a ∈ l1, a ∈ l2) : l1.length ≤ l2.length := by
  calc l1.length = l1.toFinset.card := (List.toFinset_card_of_nodup h1).symm
    _ ≤ l2.toFinset.card := by
        apply Finset.card_le_card
        intro a ha
        rw [List.mem_toFinset] at ha ⊢
        exact hsub a ha
    _ ≤ l2.length := List.toFinset_card_le l2

/-- Cauchy-Schwarz for list sums: the square of a sum is at most the
length times the sum of squares. -/
theorem sq_sum_le_length_mul_sum_sq (l : List ℚ) :
    l.sum ^ 2 ≤ (l.length : ℚ) * (l.map (fun x => x * x)).sum := by
  induction l with
  | nil => simp
  | cons a t ih =>
      simp only [List.sum_cons, List.length_cons, List.map_cons]
      have hs : (0 : ℚ) ≤ (t.map (fun x => x * x)).sum := by
        apply List.sum_nonneg
        intro x hx
        obtain ⟨y, _, rfl⟩ := List.mem_map.mp hx
        exact mul_self_nonneg y
      have hn : (0 : ℚ) ≤ (t.length : ℚ) := by positivity
      push_cast
      rcases eq_or_lt_of_le hn with hzero | hpos
      · have hlen : t.length = 0 := by exact_mod_cast hzero.symm
        rw [List.length_eq_zero] at hlen
        subst hlen
        simp only [List.sum_nil, List.map_nil, List.length_nil] at *
        nlinarith [sq_nonneg a]
      · nlinarith [ih, sq_nonneg ((t.length : ℚ) * a - t.sum),
          mul_nonneg (le_of_lt hpos) hs, mul_pos hpos hpos]

/-- The descending stable sort used throughout the embedding is sorted:
consecutive elements have non-increasing keys. -/
theorem mergeSort_pairwise_desc {α : Type} {β : Type} [LinearOrder β] (key : α → β)
    (l : List α) :
    List.Pairwise (fun a b => key b ≤ key a)
      (l.mergeSort (fun a b => decide (key b ≤ key a))) := by
  have h := @List.sorted_mergeSort α (fun a b : α => decide (key b ≤ key a))
    (fun a b c hab hbc => by
      rw [decide_eq_true_eq] at *
      exact le_trans hbc hab)
    (fun a b => by
      rcases le_total (key b) (key a) with h | h
      · simp [h]
      · simp [h])
    l
  exact h.imp (fun hab => by rwa [decide_eq_true_eq] at hab)

/-- A Bool filter is non-empty exactly when some element satisfies it. -/
theorem filter_length_pos_iff {α : Type} (p : α → Bool) (l : List α) :
    0 < (l.filter p).length ↔ ∃ a ∈ l, p a = true := by
  rw [List.length_pos]
  constructor
  · intro h
    by_contra hno
    push_neg at hno
    exact h (List.filter_eq_nil_iff.mpr (fun a ha => by
      simp only [Bool.not_eq_true]
      have := hno a ha
      simpa using this))
  · rintro ⟨a, ha, hpa⟩ hnil
    have := List.filter_eq_nil_iff.mp hnil a ha
    exact this hpa

/-! ### Centroid lemmas and claim C3 -/

theorem mapFind_mapSet_self (m : TokenMap) (k : String) (v : ℚ) :
    mapFind (mapSet m k v) k = some v := by
  induction m with
  | nil => simp [mapSet, mapFind]
  | cons p rest ih =>
      by_cases h : p.1 = k
      · simp [mapSet, h, mapFind]
      · simp [mapSet, h, mapFind, ih]

theorem mapFind_mapSet_ne (m : TokenMap) (k : String) (v : ℚ) (k' : String)
    (h : k ≠ k') : mapFind (mapSet m k v) k' = mapFind m k' := by
  induction m with
  | nil => simp [mapSet, mapFind, h]
  | cons p rest ih =>
      by_cases hp : p.1 = k
      · simp [mapSet, hp, mapFind, h]
      · simp only [mapSet, if_neg hp]
        by_cases hp' : p.1 = k'
        · simp [mapFind, hp']
        · simp [mapFind, hp', ih]

theorem mapGetD_update_fold (T : List String) (m : TokenMap) (w : ℚ) (t : String) :
    mapGetD (T.foldl (fun acc tok => mapSet acc tok (mapGetD acc tok + w)) m) t
      = mapGetD m t + w * List.count t T := by
  induction T generalizing m with
  | nil => simp
  | cons a rest ih =>
      rw [List.foldl_cons, ih, List.count_cons]
      by_cases h : a = t
      · subst h
        unfold mapGetD
        rw [mapFind_mapSet_self]
        simp only [Option.getD_some, beq_self_eq_true, if_pos rfl]
        push_cast
        ring
      · unfold mapGetD
        rw [mapFind_mapSet_ne _ _ _ _ h]
        have hb : (a == t) = false := by
          simp [h]
        simp [hb]

theorem weightAt_updateCentroid (c : TokenCentroid) (T : List String) (w : ℚ) (t : String) :
    weightAt (updateCentroid c T w) t = weightAt c t + w * List.count t T := by
  unfold weightAt updateCentroid
  exact mapGetD_update_fold T c.tokens w t

/-- Claim C3: updateCentroid adds, for every token, the update weight
times its number of occurrences in the list, and grows totalWeight by
weight times the list length; hence two sequential updates accumulate
both contributions and commute as mappings from tokens to weights. -/
theorem updateCentroid_additive_commutative (C : TokenCentroid) (T1 T2 : List String)
    (w1 w2 : ℚ) (t : String) :
    weightAt (updateCentroid C T1 w1) t = weightAt C t + w1 * List.count t T1 ∧
    (updateCentroid C T1 w1).totalWeight = C.totalWeight + w1 * T1.length ∧
    weightAt (updateCentroid (updateCentroid C T1 w1) T2 w2) t
      = weightAt C t + w1 * List.count t T1 + w2 * List.count t T2 ∧
    weightAt (updateCentroid (updateCentroid C T1 w1) T2 w2) t
      = weightAt (updateCentroid (updateCentroid C T2 w2) T1 w1) t ∧
    (updateCentroid (updateCentroid C T1 w1) T2 w2).totalWeight
      = (updateCentroid (updateCentroid C T2 w2) T1 w1).totalWeight := by
  refine ⟨weightAt_updateCentroid C T1 w1 t, rfl, ?_, ?_, ?_⟩
  · rw [weightAt_updateCentroid, weightAt_updateCentroid]
  · rw [weightAt_updateCentroid, weightAt_updateCentroid,
      weightAt_updateCentroid, weightAt_updateCentroid]
    ring
  · show C.totalWeight + w1 * T1.length + w2 * T2.length
      = C.totalWeight + w2 * T2.length + w1 * T1.length
    ring

/-! ### Claim C7: absent context degrades gracefully -/

/-- Claim C7: with no ActiveContext supplied, chainProximity and
recencyBoost both evaluate to 0 (also as seen in the breakdown of
scoreTabForProject), rather than failing. -/
theorem context_absent_scores_zero (tab : TabMeta) (project : Project) (now : ℚ)
    (config : MatcherConfig) :
    scoreChainProximity tab project none = 0 ∧
    scoreRecencyBoost project none now = 0 ∧
    (scoreTabForProject config tab project none now).breakdown.chainProximity = 0 ∧
    (scoreTabForProject config tab project none now).breakdown.recencyBoost = 0 := by
  refine ⟨rfl, rfl, rfl, rfl⟩

/-! ### Claim C9: scoring is deterministic -/

/-- Claim C9: scoring is a pure function of the tab, the project, the
context and the clock reading: two evaluations on equal inputs (the
Date.now reading made explicit) return identical ScoringResults. -/
theorem scoring_deterministic (config : MatcherConfig) (tab tab' : TabMeta)
    (project project' : Project) (context context' : Option ActiveContext)
    (now now' : ℚ) (htab : tab = tab') (hproject : project = project')
    (hcontext : context = context') (hnow : now = now') :
    scoreTabForProject config tab project context now
      = scoreTabForProject config tab' project' context' now' := by
  subst htab hproject hcontext hnow
  rfl

/-! ### Claim C6: manual assignments bypass scoring and mutate nothing -/

/-- Claim C6: for a manually assigned tab with a non-empty project id,
assignTabToProject returns method manual with confidence 1.0 and the
existing project and subproject ids of the tab, and the returned state is
exactly the input state: no tab write, no project or centroid update, no
context-cache change. -/
theorem manual_assignment_frame (s : SysState) (tab : TabMeta) (windowId : ℕ)
    (now : ℚ) (ids : FreshIds) (pid : String)
    (hmanual : tab.manuallyAssigned = true)
    (hpid : tab.projectId = some pid) (hne : pid ≠ "") :
    assignTabToProject s tab windowId now ids =
      ({ tabId := tab.tabId
         projectId := pid
         subprojectId := tab.subprojectId
         confidence := 1.0
         method := AssignMethod.manual }, s) := by
  unfold assignTabToProject
  rw [hmanual, hpid]
  simp [truthyStr, hne]

/-! ### Claim C5: staged candidate narrowing -/

theorem narrowCandidates_stage1 (tab : TabMeta) (ps : List Project) (now : ℚ)
    (h : ∃ p ∈ ps, sameHostPred tab p = true) :
    narrowCandidates tab ps now = ps.filter (sameHostPred tab) := by
  unfold narrowCandidates
  rw [if_pos ((filter_length_pos_iff (sameHostPred tab) ps).mpr h)]

theorem narrowCandidates_stage2 (tab : TabMeta) (ps : List Project) (now : ℚ)
    (h1 : ¬ ∃ p ∈ ps, sameHostPred tab p = true)
    (h2 : ∃ p ∈ ps, sameDomainPred tab p = true) :
    narrowCandidates tab ps now = ps.filter (sameDomainPred tab) := by
  unfold narrowCandidates
  rw [if_neg, if_pos ((filter_length_pos_iff (sameDomainPred tab) ps).mpr h2)]
  rw [gt_iff_lt, filter_length_pos_iff]
  exact h1

theorem narrowCandidates_stage3 (tab : TabMeta) (ps : List Project) (now : ℚ)
    (h1 : ¬ ∃ p ∈ ps, sameHostPred tab p = true)
    (h2 : ¬ ∃ p ∈ ps, sameDomainPred tab p = true)
    (h3 : ∃ p ∈ ps, recentPred now p = true) :
    narrowCandidates tab ps now =
      ((ps.filter (recentPred now)).mergeSort
        (fun a b => decide (b.lastActiveAt ≤ a.lastActiveAt))).take 15 := by
  unfold narrowCandidates
  rw [if_neg, if_neg, if_pos]
  · have hperm := List.mergeSort_perm (ps.filter (recentPred now))
      (fun a b => decide (b.lastActiveAt ≤ a.lastActiveAt))
    have hlen : 0 < ((ps.filter (recentPred now)).mergeSort
        (fun a b => decide (b.lastActiveAt ≤ a.lastActiveAt))).length := by
      rw [hperm.length_eq]
      exact (filter_length_pos_iff (recentPred now) ps).mpr h3
    rcases hsort : (ps.filter (recentPred now)).mergeSort
        (fun a b => decide (b.lastActiveAt ≤ a.lastActiveAt)) with _ | ⟨a, rest⟩
    · rw [hsort] at hlen
      simp at hlen
    · simp [List.take]
  · rw [gt_iff_lt, filter_length_pos_iff]
    exact h2
  · rw [gt_iff_lt, filter_length_pos_iff]
    exact h1

theorem narrowCandidates_stage4 (tab : TabMeta) (ps : List Project) (now : ℚ)
    (h1 : ¬ ∃ p ∈ ps, sameHostPred tab p = true)
    (h2 : ¬ ∃ p ∈ ps, sameDomainPred tab p = true)
    (h3 : ¬ ∃ p ∈ ps, recentPred now p = true) :
    narrowCandidates tab ps now = ps.take 20 := by
  unfold narrowCandidates
  rw [if_neg, if_neg, if_neg]
  · have : ps.filter (recentPred now) = [] := by
      rw [List.filter_eq_nil_iff]
      intro a ha hpa
      exact h3 ⟨a, ha, hpa⟩
    rw [this]
    simp
  · rw [gt_iff_lt, filter_length_pos_iff]
    exact h2
  · rw [gt_iff_lt, filter_length_pos_iff]
    exact h1

/-- Claim C5: narrowing is staged with short-circuiting. When some project
matches the tab host by subproject signature or host rule, exactly those
projects survive; otherwise when some project has a domain rule equal to
the last two labels of the host, exactly those; otherwise the projects
active within the last 30 minutes, sorted most-recent first, capped at 15;
otherwise the first 20 projects in the supplied order. -/
theorem narrowing_staged (tab : TabMeta) (ps : List Project) (now : ℚ) :
    ((∃ p ∈ ps, sameHostPred tab p = true) →
        narrowCandidates tab ps now = ps.filter (sameHostPred tab)) ∧
    ((¬ ∃ p ∈ ps, sameHostPred tab p = true) → (∃ p ∈ ps, sameDomainPred tab p = true) →
        narrowCandidates tab ps now = ps.filter (sameDomainPred tab)) ∧
    ((¬ ∃ p ∈ ps, sameHostPred tab p = true) → (¬ ∃ p ∈ ps, sameDomainPred tab p = true) →
      (∃ p ∈ ps, recentPred now p = true) →
        ∃ sorted, sorted.Perm (ps.filter (recentPred now)) ∧
          List.Pairwise (fun a b => b.lastActiveAt ≤ a.lastActiveAt) sorted ∧
          narrowCandidates tab ps now = sorted.take 15) ∧
    ((¬ ∃ p ∈ ps, sameHostPred tab p = true) → (¬ ∃ p ∈ ps, sameDomainPred tab p = true) →
      (¬ ∃ p ∈ ps, recentPred now p = true) →
        narrowCandidates tab ps now = ps.take 20) := by
  refine ⟨narrowCandidates_stage1 tab ps now, narrowCandidates_stage2 tab ps now,
    ?_, narrowCandidates_stage4 tab ps now⟩
  intro h1 h2 h3
  refine ⟨(ps.filter (recentPred now)).mergeSort
      (fun a b => decide (b.lastActiveAt ≤ a.lastActiveAt)),
    List.mergeSort_perm _ _,
    mergeSort_pairwise_desc (fun p : Project => p.lastActiveAt) _,
    narrowCandidates_stage3 tab ps now h1 h2 h3⟩

/-- Witness for claim C5 at a concrete input: projA matches the host of
tabA through its host rule, so narrowing returns exactly the same-host
filter, here the singleton list. -/
theorem narrowing_staged_witness :
    (∃ p ∈ [projA], sameHostPred tabA p = true) ∧
    narrowCandidates tabA [projA] nowA = [projA] := by
  have hpred : sameHostPred tabA projA = true := by
    simp [sameHostPred, projA, tabA]
  have hex : ∃ p ∈ [projA], sameHostPred tabA p = true :=
    ⟨projA, List.mem_singleton_self projA, hpred⟩
  refine ⟨hex, ?_⟩
  rw [(narrowing_staged tabA [projA] nowA).1 hex]
  simp [hpred]

/-! ### Claim C8: the rolling context snapshot -/

/-- Claim C8: updateContext builds the recent list from exactly the tabs
of the window whose last activity is within the 30-minute rolling window,
weighs each one as 0.7 times the saturating dwell score plus 0.3 times the
linear recency score, sorts descending by weight, and takes the active ids
from the just-activated tab. -/
theorem context_snapshot (s : SysState) (windowId : ℕ) (activatedTab : TabMeta) (now : ℚ) :
    (updateContextState s windowId activatedTab now).1
      = updateContextPure (getTabsByWindow s windowId) windowId activatedTab now ∧
    (updateContextPure (getTabsByWindow s windowId) windowId activatedTab now).recentTabs.Perm
      (((getTabsByWindow s windowId).filter
          (fun t => decide (now - t.lastActiveAt < contextWindowMs))).map
        (recentActivityOf now)) ∧
    List.Pairwise (fun a b => b.weight ≤ a.weight)
      (updateContextPure (getTabsByWindow s windowId) windowId activatedTab now).recentTabs ∧
    (updateContextPure (getTabsByWindow s windowId) windowId activatedTab now).activeProjectId
      = activatedTab.projectId ∧
    (updateContextPure (getTabsByWindow s windowId) windowId activatedTab now).activeSubprojectId
      = activatedTab.subprojectId ∧
    ∀ rt ∈ (updateContextPure (getTabsByWindow s windowId) windowId activatedTab now).recentTabs,
      rt.weight = 0.7 * min 1 (rt.dwellTime / 60000)
        + 0.3 * (1 - (now - rt.lastActiveAt) / contextWindowMs) := by
  refine ⟨rfl, List.mergeSort_perm _ _,
    mergeSort_pairwise_desc (fun rt : RecentTabActivity => rt.weight) _, rfl, rfl, ?_⟩
  intro rt hrt
  rw [updateContextPure] at hrt
  simp only [List.mem_mergeSort] at hrt
  obtain ⟨t, _, rfl⟩ := List.mem_map.mp hrt
  rfl

/-- Witness for claim C8 at a concrete input: the single tab of stateW is
inside the rolling window, its snapshot entry is present, and its weight
satisfies the stated formula. -/
theorem context_snapshot_witness :
    recentActivityOf nowA tabW
      ∈ (updateContextPure (getTabsByWindow stateW 1) 1 tabA nowA).recentTabs ∧
    (recentActivityOf nowA tabW).weight
      = 0.7 * min 1 ((recentActivityOf nowA tabW).dwellTime / 60000)
        + 0.3 * (1 - (nowA - (recentActivityOf nowA tabW).lastActiveAt) / contextWindowMs) := by
  have hmem : recentActivityOf nowA tabW
      ∈ (updateContextPure (getTabsByWindow stateW 1) 1 tabA nowA).recentTabs := by
    have hperm := (context_snapshot stateW 1 tabA nowA).2.1
    rw [hperm.mem_iff]
    have hwin : getTabsByWindow stateW 1 = [tabW] := by
      simp [getTabsByWindow, stateW, tabW, tabA]
    rw [hwin]
    have hfilter : decide (nowA - tabW.lastActiveAt < contextWindowMs) = true := by
      rw [decide_eq_true_eq]
      norm_num [nowA, tabW, tabA, contextWindowMs]
    simp [hfilter]
  exact ⟨hmem, (context_snapshot stateW 1 tabA nowA).2.2.2.2.2 _ hmem⟩

/-- Witness for claim C6: the manual tab of the fixture set is returned
untouched with method manual and confidence 1.0, and the state is the
unchanged empty store. -/
theorem manual_assignment_frame_witness :
    tabManual.manuallyAssigned = true ∧ tabManual.projectId = some pidP1 ∧ pidP1 ≠ "" ∧
    assignTabToProject stateA tabManual 1 nowA idsA =
      ({ tabId := 7
         projectId := pidP1
         subprojectId := some sidS1
         confidence := 1.0
         method := AssignMethod.manual }, stateA) :=
  ⟨rfl, rfl, by decide,
    manual_assignment_frame stateA tabManual 1 nowA idsA pidP1 rfl rfl (by decide)⟩

/-- Witness for claim C9 at a concrete input. -/
theorem scoring_deterministic_witness :
    scoreTabForProject defaultMatcherConfig tabA projA none nowA
      = scoreTabForProject defaultMatcherConfig tabA projA none nowA :=
  scoring_deterministic defaultMatcherConfig tabA tabA projA projA none none nowA nowA
    rfl rfl rfl rfl

/-! ### Claim C2: the minimum-threshold filter and descending sort -/

theorem c2_score_eval :
    (scoreTabForProject defaultMatcherConfig c2Tab c2Proj (some c2Ctx) c2Now).score = 0.3 := by
  have h1 : scoreHostMatch c2Tab c2Proj = 0 := by
    simp [scoreHostMatch, hostMatchLoop, c2Proj, c2Tab]
  have h2 : scorePathMatch c2Tab c2Proj = 0 := by
    simp [scorePathMatch, c2Proj, c2Tab]
  have h3 : scoreTokenSimilarity c2Tab c2Proj = 0 := by
    simp [scoreTokenSimilarity, weightedTokenSimilarity, cosineSimilarity,
      jaccardSimilarity, c2Proj, emptyCentroid]
  have h4 : scoreChainProximity c2Tab c2Proj (some c2Ctx) = 0 := by
    simp [scoreChainProximity, c2Ctx, c2Proj]
  have h5 : scoreRecencyBoost c2Proj (some c2Ctx) c2Now = 0.3 := by
    rw [scoreRecencyBoost]
    have hactive : c2Ctx.activeProjectId = none := rfl
    rw [hactive, if_neg (by simp)]
    norm_num [c2Proj, c2Now]
  rw [scoreTabForProject]
  simp only [h1, h2, h3, h4, h5, defaultMatcherConfig]
  push_cast
  ring

theorem c2_result_mem :
    scoreTabForProject defaultMatcherConfig c2Tab c2Proj (some c2Ctx) c2Now
      ∈ scoreAllProjects defaultMatcherConfig c2Tab [c2Proj] (some c2Ctx) c2Now := by
  unfold scoreAllProjects
  rw [List.mem_mergeSort]
  simp only [List.map_cons, List.map_nil, List.filter_cons, List.filter_nil]
  rw [c2_score_eval]
  norm_num [defaultMatcherConfig]

/-- Claim C2 counterexample: a candidate whose total score is exactly 0.3
is present in the results of scoreAllProjects, because the filter keeps
scores at or above the minimum threshold. -/
theorem score_exactly_min_threshold_included :
    (scoreTabForProject defaultMatcherConfig c2Tab c2Proj (some c2Ctx) c2Now).score = 0.3 ∧
    scoreTabForProject defaultMatcherConfig c2Tab c2Proj (some c2Ctx) c2Now
      ∈ scoreAllProjects defaultMatcherConfig c2Tab [c2Proj] (some c2Ctx) c2Now :=
  ⟨c2_score_eval, c2_result_mem⟩

/-- Claim C2 (amended): scoreAllProjects discards exactly the candidates
whose total score is strictly below the 0.3 minimum threshold — a score of
exactly 0.3 is retained — and the surviving results are a permutation of
that filter, sorted in descending order of total score. -/
theorem scoreAllProjects_threshold_filter_sorted (tab : TabMeta) (ps : List Project)
    (ctx : Option ActiveContext) (now : ℚ) :
    (∀ r ∈ scoreAllProjects defaultMatcherConfig tab ps ctx now, (0.3 : ℝ) ≤ r.score) ∧
    (scoreAllProjects defaultMatcherConfig tab ps ctx now).Perm
      ((ps.map (fun p => scoreTabForProject defaultMatcherConfig tab p ctx now)).filter
        (fun r => decide ((0.3 : ℝ) ≤ r.score))) ∧
    List.Pairwise (fun a b => b.score ≤ a.score)
      (scoreAllProjects defaultMatcherConfig tab ps ctx now) := by
  refine ⟨?_, ?_, ?_⟩
  · intro r hr
    unfold scoreAllProjects at hr
    rw [List.mem_mergeSort] at hr
    have := (List.mem_filter.mp hr).2
    rw [decide_eq_true_eq] at this
    exact this
  · exact List.mergeSort_perm _ _
  · unfold scoreAllProjects
    exact mergeSort_pairwise_desc (fun r : ScoringResult => r.score) _

/-- Witness for claim C2 (amended) at a concrete input: the boundary
candidate of the fixture scenario survives the filter. -/
theorem scoreAllProjects_threshold_filter_sorted_witness :
    (0.3 : ℝ) ≤ (scoreTabForProject defaultMatcherConfig c2Tab c2Proj (some c2Ctx) c2Now).score :=
  (scoreAllProjects_threshold_filter_sorted c2Tab [c2Proj] (some c2Ctx) c2Now).1 _ c2_result_mem

/-! ### Claim C1: unnormalized host-rule scoring against the thresholds -/

theorem hostMatchLoop_of_first_match (host : String) (pre post : List ProjectRule) (w : ℚ)
    (hpre : ∀ r ∈ pre, ¬(r.type = RuleType.host ∧ host = r.value) ∧
      ¬(r.type = RuleType.domain ∧ lastTwoLabels host = r.value)) :
    hostMatchLoop host
        (pre ++ ({ type := RuleType.host, value := host, weight := w } : ProjectRule) :: post)
      = some 1.0 := by
  induction pre with
  | nil => simp [hostMatchLoop]
  | cons r rest ih =>
      obtain ⟨hna, hnb⟩ := hpre r (List.mem_cons_self r rest)
      rw [List.cons_append, hostMatchLoop, if_neg hna, if_neg hnb]
      exact ih (fun r' hr' => hpre r' (List.mem_cons_of_mem r hr'))

/-- Claim C1 (amended): whenever the exact host rule is the first rule of
the project that matches the tab (so the hostMatch sub-score evaluates to
1.0 rather than being shadowed by an earlier matching domain rule) and
every other sub-score is 0, the raw weighted sum is exactly 3.0, and that
unnormalized value is what the 0.5 commit threshold and the 0.8
deterministic threshold compare against: 3.0 clears both. -/
theorem host_rule_unnormalized_thresholds (tab : TabMeta) (p : Project)
    (ctx : Option ActiveContext) (now : ℚ) (pre post : List ProjectRule) (w : ℚ)
    (hrules : p.rules
      = pre ++ ({ type := RuleType.host, value := tab.host, weight := w } : ProjectRule) :: post)
    (hpre : ∀ r ∈ pre, ¬(r.type = RuleType.host ∧ tab.host = r.value) ∧
      ¬(r.type = RuleType.domain ∧ lastTwoLabels tab.host = r.value))
    (hpath : scorePathMatch tab p = 0)
    (htok : scoreTokenSimilarity tab p = 0)
    (hchain : scoreChainProximity tab p ctx = 0)
    (hrec : scoreRecencyBoost p ctx now = 0) :
    (scoreTabForProject defaultMatcherConfig tab p ctx now).breakdown.hostMatch = 1 ∧
    (scoreTabForProject defaultMatcherConfig tab p ctx now).score = 3 ∧
    (0.5 : ℝ) < (scoreTabForProject defaultMatcherConfig tab p ctx now).score ∧
    (0.8 : ℝ) < (scoreTabForProject defaultMatcherConfig tab p ctx now).score := by
  have hhost : scoreHostMatch tab p = 1 := by
    rw [scoreHostMatch, hrules, hostMatchLoop_of_first_match tab.host pre post w hpre]
    norm_num
  have hscore : (scoreTabForProject defaultMatcherConfig tab p ctx now).score = 3 := by
    rw [scoreTabForProject]
    simp only [hhost, hpath, htok, hchain, hrec, defaultMatcherConfig]
    push_cast
    ring
  refine ⟨?_, hscore, ?_, ?_⟩
  · rw [scoreTabForProject]
    simp only [hhost]
  · rw [hscore]
    norm_num
  · rw [hscore]
    norm_num

/-- Claim C1 counterexample: projShadowed carries an exact host rule that
matches the tab host and all sub-scores other than hostMatch are 0, yet
the total score is 2.4, not 3.0, because the matching domain rule placed
earlier in the rule list returns 0.8 before the host rule is reached. -/
theorem host_rule_shadowed_counterexample :
    (∃ r ∈ projShadowed.rules, r.type = RuleType.host ∧ r.value = tabA.host) ∧
    (scoreTabForProject defaultMatcherConfig tabA projShadowed none nowA).breakdown.pathMatch
      = 0 ∧
    (scoreTabForProject defaultMatcherConfig tabA projShadowed none nowA).breakdown.tokenSimilarity
      = 0 ∧
    (scoreTabForProject defaultMatcherConfig tabA projShadowed none nowA).breakdown.chainProximity
      = 0 ∧
    (scoreTabForProject defaultMatcherConfig tabA projShadowed none nowA).breakdown.recencyBoost
      = 0 ∧
    (scoreTabForProject defaultMatcherConfig tabA projShadowed none nowA).score = 2.4 ∧
    (scoreTabForProject defaultMatcherConfig tabA projShadowed none nowA).score ≠ 3 := by
  have hdom : lastTwoLabels tabA.host = "github.com" := by decide
  have hhost : scoreHostMatch tabA projShadowed = 0.8 := by
    rw [scoreHostMatch]
    have hloop : hostMatchLoop tabA.host projShadowed.rules = some 0.8 := by
      rw [show projShadowed.rules
          = [({ type := RuleType.domain, value := "github.com", weight := 1.0 } : ProjectRule),
             ({ type := RuleType.host, value := "github.com", weight := 1.0 } : ProjectRule)]
        from rfl]
      rw [hostMatchLoop]
      rw [if_neg (by simp), if_pos (by simp [hdom])]
    rw [hloop]
  have hpath : scorePathMatch tabA projShadowed = 0 := by
    simp [scorePathMatch, projShadowed, projA, tabA]
  have htok : scoreTokenSimilarity tabA projShadowed = 0 := by
    simp [scoreTokenSimilarity, weightedTokenSimilarity, cosineSimilarity,
      jaccardSimilarity, projShadowed, projA, emptyCentroid]
  have hscore : (scoreTabForProject defaultMatcherConfig tabA projShadowed none nowA).score
      = 2.4 := by
    rw [scoreTabForProject]
    simp only [hhost, hpath, htok, scoreChainProximity, scoreRecencyBoost, defaultMatcherConfig]
    push_cast
    norm_num
  refine ⟨?_, ?_, ?_, ?_, ?_, hscore, ?_⟩
  · refine ⟨{ type := RuleType.host, value := "github.com", weight := 1.0 }, ?_, rfl, rfl⟩
    simp [projShadowed, projA]
  · rw [scoreTabForProject]
    simp only [hpath]
  · rw [scoreTabForProject]
    simp only [htok]
  · rfl
  · rfl
  · rw [hscore]
    norm_num

/-- Witness for claim C1 (amended) at a concrete input: projA holds the
exact host rule for the tab host as its only rule, all other sub-scores
are 0, and the score is exactly 3. -/
theorem host_rule_unnormalized_thresholds_witness :
    projA.rules
      = [] ++ ({ type := RuleType.host, value := tabA.host, weight := 1.0 } : ProjectRule) :: [] ∧
    (scoreTabForProject defaultMatcherConfig tabA projA none nowA).score = 3 := by
  refine ⟨rfl, ?_⟩
  refine (host_rule_unnormalized_thresholds tabA projA none nowA [] [] 1.0 rfl
    (by simp) ?_ ?_ rfl rfl).2.1
  · simp [scorePathMatch, projA, tabA]
  · simp [scoreTokenSimilarity, weightedTokenSimilarity, cosineSimilarity,
      jaccardSimilarity, projA, emptyCentroid]

/-! ### Claim C4: the similarity blend is bounded -/

theorem dotSum_eq_filter_sum (m : TokenMap) (tokens : List String) :
    dotSum m tokens
      = ((m.filter (fun p => decide (p.1 ∈ tokens))).map (fun p => p.2)).sum := by
  induction m with
  | nil => simp [dotSum]
  | cons p rest ih =>
      by_cases h : p.1 ∈ tokens
      · simp [dotSum, List.filter_cons, h, List.sum_cons] at ih ⊢
        rw [ih]
      · simp [dotSum, List.filter_cons, h, List.sum_cons] at ih ⊢
        rw [ih]

theorem dotSum_nonneg (m : TokenMap) (tokens : List String)
    (hw : ∀ p ∈ m, 0 ≤ p.2) : 0 ≤ dotSum m tokens := by
  apply List.sum_nonneg
  intro x hx
  obtain ⟨p, hp, rfl⟩ := List.mem_map.mp hx
  by_cases h : p.1 ∈ tokens
  · simpa [h] using hw p hp
  · simp [h]

theorem sqSum_nonneg (m : TokenMap) : 0 ≤ sqSum m := by
  apply List.sum_nonneg
  intro x hx
  obtain ⟨p, _, rfl⟩ := List.mem_map.mp hx
  exact mul_self_nonneg p.2

theorem sqSum_filter_le (m : TokenMap) (pred : String × ℚ → Bool) :
    sqSum (m.filter pred) ≤ sqSum m := by
  apply List.Sublist.sum_le_sum
  · exact (List.filter_sublist m).map (fun p => p.2 * p.2)
  · intro a ha
    obtain ⟨p, _, rfl⟩ := List.mem_map.mp ha
    exact mul_self_nonneg p.2

theorem filter_length_le_dedup (m : TokenMap) (tokens : List String)
    (hnd : (m.map Prod.fst).Nodup) :
    (m.filter (fun p => decide (p.1 ∈ tokens))).length ≤ tokens.dedup.length := by
  have hkeys : ((m.filter (fun p => decide (p.1 ∈ tokens))).map Prod.fst).Nodup :=
    hnd.sublist ((List.filter_sublist m).map Prod.fst)
  have hsub : ∀ k ∈ (m.filter (fun p => decide (p.1 ∈ tokens))).map Prod.fst,
      k ∈ tokens.dedup := by
    intro k hk
    obtain ⟨p, hp, rfl⟩ := List.mem_map.mp hk
    have hmem := (List.mem_filter.mp hp).2
    rw [decide_eq_true_eq] at hmem
    exact List.mem_dedup.mpr hmem
  have := nodup_subset_length_le hkeys hsub
  rwa [List.length_map] at this

theorem dotSum_sq_le (m : TokenMap) (tokens : List String)
    (hnd : (m.map Prod.fst).Nodup) :
    (dotSum m tokens) ^ 2 ≤ (tokens.length : ℚ) * sqSum m := by
  set fl := m.filter (fun p => decide (p.1 ∈ tokens)) with hfl
  have hdot : dotSum m tokens = (fl.map (fun p => p.2)).sum := dotSum_eq_filter_sum m tokens
  have hcs := sq_sum_le_length_mul_sum_sq (fl.map (fun p => p.2))
  have hmaps : ((fl.map (fun p => p.2)).map (fun x => x * x)).sum = sqSum fl := by
    rw [List.map_map]
    rfl
  rw [hmaps, List.length_map] at hcs
  have hlen1 : fl.length ≤ tokens.dedup.length := filter_length_le_dedup m tokens hnd
  have hlen2 : tokens.dedup.length ≤ tokens.length := (List.dedup_sublist tokens).length_le
  have hlenq : (fl.length : ℚ) ≤ (tokens.length : ℚ) := by
    exact_mod_cast le_trans hlen1 hlen2
  have hsq : sqSum fl ≤ sqSum m := sqSum_filter_le m _
  calc (dotSum m tokens) ^ 2 = ((fl.map (fun p => p.2)).sum) ^ 2 := by rw [hdot]
    _ ≤ (fl.length : ℚ) * sqSum fl := hcs
    _ ≤ (fl.length : ℚ) * sqSum m := by
        apply mul_le_mul_of_nonneg_left hsq
        positivity
    _ ≤ (tokens.length : ℚ) * sqSum m := by
        apply mul_le_mul_of_nonneg_right hlenq
        exact sqSum_nonneg m

theorem cosineSimilarity_nonneg (c : TokenCentroid) (tokens : List String)
    (hw : ∀ p ∈ c.tokens, 0 ≤ p.2) : 0 ≤ cosineSimilarity c tokens := by
  simp only [cosineSimilarity]
  split_ifs with h1 h2
  · norm_num
  · norm_num
  · apply div_nonneg
    · exact_mod_cast dotSum_nonneg c.tokens tokens hw
    · exact mul_nonneg (Real.sqrt_nonneg _) (Real.sqrt_nonneg _)

theorem cosineSimilarity_le_one (c : TokenCentroid) (tokens : List String)
    (hnd : (c.tokens.map Prod.fst).Nodup) (hw : ∀ p ∈ c.tokens, 0 ≤ p.2) :
    cosineSimilarity c tokens ≤ 1 := by
  simp only [cosineSimilarity]
  split_ifs with h1 h2
  · norm_num
  · norm_num
  · push_neg at h2
    obtain ⟨hcm, htm⟩ := h2
    have hcm' : 0 < Real.sqrt ((sqSum c.tokens : ℚ) : ℝ) :=
      lt_of_le_of_ne (Real.sqrt_nonneg _) (Ne.symm hcm)
    have htm' : 0 < Real.sqrt ((tokens.length : ℕ) : ℝ) :=
      lt_of_le_of_ne (Real.sqrt_nonneg _) (Ne.symm htm)
    rw [div_le_one (mul_pos hcm' htm')]
    have hd0 : (0 : ℚ) ≤ dotSum c.tokens tokens := dotSum_nonneg c.tokens tokens hw
    have hsq : (dotSum c.tokens tokens) ^ 2 ≤ (tokens.length : ℚ) * sqSum c.tokens :=
      dotSum_sq_le c.tokens tokens hnd
    have hs0 : (0 : ℚ) ≤ sqSum c.tokens := sqSum_nonneg c.tokens
    have hkey : ((dotSum c.tokens tokens : ℚ) : ℝ)
        ≤ Real.sqrt ((tokens.length : ℕ) : ℝ) * Real.sqrt ((sqSum c.tokens : ℚ) : ℝ) := by
      have h1' : ((dotSum c.tokens tokens : ℚ) : ℝ)
          = Real.sqrt (((dotSum c.tokens tokens : ℚ) : ℝ) ^ 2) := by
        rw [Real.sqrt_sq (by exact_mod_cast hd0)]
      rw [h1', ← Real.sqrt_mul (by positivity) ((sqSum c.tokens : ℚ) : ℝ)]
      apply Real.sqrt_le_sqrt
      exact_mod_cast hsq
    calc ((dotSum c.tokens tokens : ℚ) : ℝ)
        ≤ Real.sqrt ((tokens.length : ℕ) : ℝ) * Real.sqrt ((sqSum c.tokens : ℚ) : ℝ) := hkey
      _ = Real.sqrt ((sqSum c.tokens : ℚ) : ℝ) * Real.sqrt ((tokens.length : ℕ) : ℝ) := by
          ring

theorem jaccardSimilarity_nonneg (c : TokenCentroid) (tokens : List String) :
    0 ≤ jaccardSimilarity c tokens := by
  simp only [jaccardSimilarity]
  split_ifs with h1 h2
  · norm_num
  · norm_num
  · have hinter : ((c.tokens.filter (fun p => decide (p.1 ∈ tokens))).length : ℚ)
        ≤ (c.tokens.length : ℚ) := by
      exact_mod_cast List.length_filter_le _ c.tokens
    have hded : (0 : ℚ) ≤ (tokens.dedup.length : ℚ) := by positivity
    apply div_nonneg
    · positivity
    · linarith

theorem jaccardSimilarity_le_one (c : TokenCentroid) (tokens : List String)
    (hnd : (c.tokens.map Prod.fst).Nodup) : jaccardSimilarity c tokens ≤ 1 := by
  simp only [jaccardSimilarity]
  split_ifs with h1 h2
  · norm_num
  · norm_num
  · have hinter1 : ((c.tokens.filter (fun p => decide (p.1 ∈ tokens))).length : ℚ)
        ≤ (c.tokens.length : ℚ) := by
      exact_mod_cast List.length_filter_le _ c.tokens
    have hinter2 : ((c.tokens.filter (fun p => decide (p.1 ∈ tokens))).length : ℚ)
        ≤ (tokens.dedup.length : ℚ) := by
      exact_mod_cast filter_length_le_dedup c.tokens tokens hnd
    have hunion0 : (0 : ℚ) ≤ (c.tokens.length : ℚ) + (tokens.dedup.length : ℚ)
        - ((c.tokens.filter (fun p => decide (p.1 ∈ tokens))).length : ℚ) := by
      have : (0 : ℚ) ≤ (tokens.dedup.length : ℚ) := by positivity
      linarith
    have hpos : (0 : ℚ) < (c.tokens.length : ℚ) + (tokens.dedup.length : ℚ)
        - ((c.tokens.filter (fun p => decide (p.1 ∈ tokens))).length : ℚ) :=
      lt_of_le_of_ne hunion0 (Ne.symm h2)
    rw [div_le_one hpos]
    linarith

/-- Claim C4: for every centroid with unique keys and non-negative
weights, weightedTokenSimilarity is exactly the 0.6 cosine + 0.4 jaccard
blend, lies in the interval from 0 to 1, and is 0 whenever the centroid
has no tokens or the incoming token list is empty. -/
theorem weighted_similarity_blend_bounds (C : TokenCentroid) (tokens : List String)
    (hnd : (C.tokens.map Prod.fst).Nodup) (hw : ∀ p ∈ C.tokens, 0 ≤ p.2) :
    weightedTokenSimilarity C tokens
      = 0.6 * cosineSimilarity C tokens + 0.4 * ((jaccardSimilarity C tokens : ℚ) : ℝ) ∧
    0 ≤ weightedTokenSimilarity C tokens ∧
    weightedTokenSimilarity C tokens ≤ 1 ∧
    (C.tokens = [] → weightedTokenSimilarity C tokens = 0) ∧
    (tokens = [] → weightedTokenSimilarity C tokens = 0) := by
  have hc0 := cosineSimilarity_nonneg C tokens hw
  have hc1 := cosineSimilarity_le_one C tokens hnd hw
  have hj0 : ((jaccardSimilarity C tokens : ℚ) : ℝ) ≥ 0 := by
    exact_mod_cast jaccardSimilarity_nonneg C tokens
  have hj1 : ((jaccardSimilarity C tokens : ℚ) : ℝ) ≤ 1 := by
    exact_mod_cast jaccardSimilarity_le_one C tokens hnd
  refine ⟨rfl, ?_, ?_, ?_, ?_⟩
  · rw [weightedTokenSimilarity]
    nlinarith
  · rw [weightedTokenSimilarity]
    nlinarith
  · intro h
    rw [weightedTokenSimilarity, cosineSimilarity, jaccardSimilarity]
    simp [h]
  · intro h
    rw [weightedTokenSimilarity, cosineSimilarity, jaccardSimilarity]
    simp [h]

/-- Witness for claim C4 at a concrete input: a one-entry centroid with
weight 2 against the singleton token list containing its key. -/
theorem weighted_similarity_blend_bounds_witness :
    (centW.tokens.map Prod.fst).Nodup ∧ (∀ p ∈ centW.tokens, 0 ≤ p.2) ∧
    0 ≤ weightedTokenSimilarity centW ["alpha"] ∧
    weightedTokenSimilarity centW ["alpha"] ≤ 1 := by
  have hnd : (centW.tokens.map Prod.fst).Nodup := by
    simp [centW]
  have hw : ∀ p ∈ centW.tokens, 0 ≤ p.2 := by
    intro p hp
    simp only [centW, List.mem_singleton] at hp
    subst hp
    norm_num
  have h := weighted_similarity_blend_bounds centW ["alpha"] hnd hw
  exact ⟨hnd, hw, h.2.1, h.2.2.1⟩

/-! ### Claim C10: confidence is the raw winning score -/

theorem hostMatchLoop_cases (host : String) (rules : List ProjectRule) :
    hostMatchLoop host rules = none ∨ hostMatchLoop host rules = some 1.0 ∨
      hostMatchLoop host rules = some 0.8 := by
  induction rules with
  | nil => left; rfl
  | cons r rest ih =>
      rw [hostMatchLoop]
      split_ifs with h1 h2
      · right; left; rfl
      · right; right; rfl
      · exact ih

theorem scoreHostMatch_bounds (tab : TabMeta) (p : Project) :
    0 ≤ scoreHostMatch tab p ∧ scoreHostMatch tab p ≤ 1 := by
  rw [scoreHostMatch]
  rcases hostMatchLoop_cases tab.host p.rules with h | h | h
  · rw [h]
    split_ifs
    · norm_num
    · norm_num
  · rw [h]
    norm_num
  · rw [h]
    norm_num

theorem prefixDepthScore_bounds (value : String) :
    0 ≤ prefixDepthScore value ∧ prefixDepthScore value ≤ 1 := by
  rw [prefixDepthScore]
  constructor
  · apply le_min
    · norm_num
    · positivity
  · apply le_trans (min_le_left _ _)
    norm_num

theorem foldl_ite_max_bounds {α : Type} (cond : α → Prop) [DecidablePred cond]
    (f : α → ℚ) (l : List α) (acc : ℚ)
    (hf : ∀ a, 0 ≤ f a ∧ f a ≤ 1) (hacc : 0 ≤ acc ∧ acc ≤ 1) :
    0 ≤ l.foldl (fun acc a => if cond a then max acc (f a) else acc) acc ∧
    l.foldl (fun acc a => if cond a then max acc (f a) else acc) acc ≤ 1 := by
  induction l generalizing acc with
  | nil => exact hacc
  | cons a rest ih =>
      rw [List.foldl_cons]
      apply ih
      split_ifs with h
      · exact ⟨le_max_of_le_left hacc.1, max_le hacc.2 (hf a).2⟩
      · exact hacc

theorem scorePathMatch_bounds (tab : TabMeta) (p : Project) :
    0 ≤ scorePathMatch tab p ∧ scorePathMatch tab p ≤ 1 := by
  rw [scorePathMatch]
  have hinner := foldl_ite_max_bounds
    (fun r : ProjectRule =>
      r.type = RuleType.prefixRule ∧ jsStartsWith (joinedPath tab) r.value = true)
    (fun r : ProjectRule => prefixDepthScore r.value)
    p.rules 0 (fun r => prefixDepthScore_bounds r.value) (by norm_num)
  exact foldl_ite_max_bounds
    (fun sp : Subproject => jsStartsWith (joinedPath tab) sp.signature.prefixPath = true)
    (fun sp : Subproject => prefixDepthScore sp.signature.prefixPath)
    p.subprojects _ (fun sp => prefixDepthScore_bounds sp.signature.prefixPath) hinner

theorem weightedTokenSimilarity_bounds (c : TokenCentroid) (tokens : List String)
    (h : centroidWF c) :
    0 ≤ weightedTokenSimilarity c tokens ∧ weightedTokenSimilarity c tokens ≤ 1 := by
  have hc0 := cosineSimilarity_nonneg c tokens h.2
  have hc1 := cosineSimilarity_le_one c tokens h.1 h.2
  have hj0 : (0 : ℝ) ≤ ((jaccardSimilarity c tokens : ℚ) : ℝ) := by
    exact_mod_cast jaccardSimilarity_nonneg c tokens
  have hj1 : ((jaccardSimilarity c tokens : ℚ) : ℝ) ≤ 1 := by
    exact_mod_cast jaccardSimilarity_le_one c tokens h.1
  rw [weightedTokenSimilarity]
  constructor
  · nlinarith
  · nlinarith

theorem scoreChainProximity_bounds (tab : TabMeta) (p : Project)
    (ctx : Option ActiveContext)
    (hctx : ∀ c, ctx = some c → ∀ rt ∈ c.recentTabs, 0 ≤ rt.weight ∧ rt.weight ≤ 1) :
    0 ≤ scoreChainProximity tab p ctx ∧ scoreChainProximity tab p ctx ≤ 1 := by
  cases ctx with
  | none => norm_num [scoreChainProximity]
  | some c =>
      simp only [scoreChainProximity]
      split_ifs with h
      · norm_num
      · rcases hfind : c.recentTabs.find?
            (fun rt => decide (rt.projectId = some p.projectId)) with _ | rt
        · simp only [hfind]
          norm_num
        · simp only [hfind]
          have hmem : rt ∈ c.recentTabs := List.mem_of_find?_eq_some hfind
          have hw := hctx c rfl rt hmem
          constructor
          · nlinarith [hw.1]
          · nlinarith [hw.2, hw.1]

theorem scoreRecencyBoost_bounds (p : Project) (ctx : Option ActiveContext) (now : ℚ) :
    0 ≤ scoreRecencyBoost p ctx now ∧ scoreRecencyBoost p ctx now ≤ 1 := by
  cases ctx with
  | none => norm_num [scoreRecencyBoost]
  | some c =>
      simp only [scoreRecencyBoost]
      split_ifs
      · norm_num
      · norm_num
      · norm_num
      · norm_num
      · norm_num

theorem scoreTabForProject_le_nine_half (tab : TabMeta) (p : Project)
    (ctx : Option ActiveContext) (now : ℚ) (hp : projectWF p)
    (hctx : ∀ c, ctx = some c → ∀ rt ∈ c.recentTabs, 0 ≤ rt.weight ∧ rt.weight ≤ 1) :
    (scoreTabForProject defaultMatcherConfig tab p ctx now).score ≤ 9.5 := by
  have hh := scoreHostMatch_bounds tab p
  have hpm := scorePathMatch_bounds tab p
  have ht : 0 ≤ scoreTokenSimilarity tab p ∧ scoreTokenSimilarity tab p ≤ 1 := by
    rw [scoreTokenSimilarity]
    exact weightedTokenSimilarity_bounds p.centroid (tabScoringTokens tab) hp.1
  have hc := scoreChainProximity_bounds tab p ctx hctx
  have hr := scoreRecencyBoost_bounds p ctx now
  rw [scoreTabForProject]
  simp only [defaultMatcherConfig]
  have hhr : ((scoreHostMatch tab p : ℚ) : ℝ) ≤ 1 := by exact_mod_cast hh.2
  have hpmr : ((scorePathMatch tab p : ℚ) : ℝ) ≤ 1 := by exact_mod_cast hpm.2
  have hcr : ((scoreChainProximity tab p ctx : ℚ) : ℝ) ≤ 1 := by exact_mod_cast hc.2
  have hrr : ((scoreRecencyBoost p ctx now : ℚ) : ℝ) ≤ 1 := by exact_mod_cast hr.2
  norm_num
  nlinarith [ht.2]

theorem mem_scoreAllProjects (config : MatcherConfig) (tab : TabMeta) (ps : List Project)
    (ctx : Option ActiveContext) (now : ℚ) (r : ScoringResult)
    (h : r ∈ scoreAllProjects config tab ps ctx now) :
    ∃ p ∈ ps, r = scoreTabForProject config tab p ctx now := by
  unfold scoreAllProjects at h
  rw [List.mem_mergeSort] at h
  obtain ⟨p, hp, heq⟩ := List.mem_map.mp (List.mem_filter.mp h).1
  exact ⟨p, hp, heq.symm⟩

theorem narrowCandidates_subset (tab : TabMeta) (ps : List Project) (now : ℚ) :
    ∀ p ∈ narrowCandidates tab ps now, p ∈ ps := by
  intro p hp
  simp only [narrowCandidates] at hp
  split_ifs at hp
  · exact (List.mem_filter.mp hp).1
  · exact (List.mem_filter.mp hp).1
  · have := List.take_subset 15 _ hp
    rw [List.mem_mergeSort] at this
    exact (List.mem_filter.mp this).1
  · exact List.take_subset 20 ps hp

theorem updateContextPure_weight_bounds (tabs : List TabMeta) (windowId : ℕ)
    (activatedTab : TabMeta) (now : ℚ)
    (h : ∀ tb ∈ tabs, 0 ≤ tb.activeScore ∧ tb.lastActiveAt ≤ now) :
    ∀ rt ∈ (updateContextPure tabs windowId activatedTab now).recentTabs,
      0 ≤ rt.weight ∧ rt.weight ≤ 1 := by
  intro rt hrt
  rw [updateContextPure] at hrt
  simp only [List.mem_mergeSort] at hrt
  obtain ⟨tb, htb, rfl⟩ := List.mem_map.mp hrt
  have htb1 := (List.mem_filter.mp htb).1
  have htb2 := (List.mem_filter.mp htb).2
  rw [decide_eq_true_eq] at htb2
  obtain ⟨hscore, hlast⟩ := h tb htb1
  rw [recentActivityOf]
  have hcw : (0 : ℚ) < contextWindowMs := by norm_num [contextWindowMs]
  have hdwell0 : (0 : ℚ) ≤ min 1 (tb.activeScore / 60000) := by
    apply le_min
    · norm_num
    · positivity
  have hdwell1 : min 1 (tb.activeScore / 60000) ≤ 1 := min_le_left _ _
  have hrec1 : 1 - (now - tb.lastActiveAt) / contextWindowMs ≤ 1 := by
    have : (0 : ℚ) ≤ (now - tb.lastActiveAt) / contextWindowMs := by
      apply div_nonneg
      · linarith
      · linarith
    linarith
  have hrec0 : 0 ≤ 1 - (now - tb.lastActiveAt) / contextWindowMs := by
    have : (now - tb.lastActiveAt) / contextWindowMs < 1 := by
      rw [div_lt_one hcw]
      linarith
    linarith
  constructor
  · simp only
    nlinarith
  · simp only
    nlinarith

/-- Claim C10: for every assignment, a deterministic or semantic method
reports as confidence exactly the raw unnormalized total score of the
winning candidate of getBestMatch (above the 0.5 commit threshold and at
most the full weight mass 9.5, never clamped to the unit interval), while
manual and default assignments always report confidence exactly 1.0. -/
theorem assignment_confidence (s : SysState) (tab : TabMeta) (windowId : ℕ)
    (now : ℚ) (ids : FreshIds)
    (hproj : ∀ p ∈ s.projects, projectWF p)
    (htabs : ∀ t ∈ s.tabs, 0 ≤ t.activeScore ∧ t.lastActiveAt ≤ now) :
    (((assignTabToProject s tab windowId now ids).1.method = AssignMethod.manual ∨
      (assignTabToProject s tab windowId now ids).1.method = AssignMethod.default) →
        (assignTabToProject s tab windowId now ids).1.confidence = 1) ∧
    (((assignTabToProject s tab windowId now ids).1.method = AssignMethod.deterministic ∨
      (assignTabToProject s tab windowId now ids).1.method = AssignMethod.semantic) →
        ∃ bm, getBestMatch defaultMatcherConfig tab s.projects
            (some (updateContextPure (getTabsByWindow s windowId) windowId tab now)) now
            = some bm ∧
          (assignTabToProject s tab windowId now ids).1.confidence = bm.score ∧
          (0.5 : ℝ) < bm.score ∧ bm.score ≤ 9.5) := by
  rw [assignTabToProject]
  by_cases hman : (tab.manuallyAssigned && truthyStr tab.projectId) = true
  · simp only [hman, if_true]
    constructor
    · intro _
      norm_num
    · intro hor
      rcases hor with h | h
      · exact absurd h (by simp)
      · exact absurd h (by simp)
  · rw [Bool.not_eq_true] at hman
    simp only [hman, Bool.false_eq_true, if_false]
    by_cases hlen : s.projects.length = 0
    · simp only [hlen, if_true]
      constructor
      · intro _
        norm_num
      · intro hor
        rcases hor with h | h
        · exact absurd h (by simp)
        · exact absurd h (by simp)
    · simp only [hlen, if_false]
      simp only [updateContextState]
      rcases hbm : getBestMatch defaultMatcherConfig tab s.projects
          (some (updateContextPure (getTabsByWindow s windowId) windowId tab now)) now
        with _ | bm
      · simp only [hbm]
        constructor
        · intro _
          norm_num
        · intro hor
          rcases hor with h | h
          · exact absurd h (by simp)
          · exact absurd h (by simp)
      · simp only [hbm]
        by_cases h05 : (0.5 : ℝ) < bm.score
        · rw [if_pos h05]
          have hscore : bm.score ≤ 9.5 := by
            have hmem : bm ∈ scoreAllProjects defaultMatcherConfig tab
                (narrowCandidates tab s.projects now)
                (some (updateContextPure (getTabsByWindow s windowId) windowId tab now)) now := by
              apply List.mem_of_mem_head?
              rw [getBestMatch] at hbm
              rw [hbm]
              exact rfl
            obtain ⟨p, hpnarrow, rfl⟩ := mem_scoreAllProjects _ _ _ _ _ _ hmem
            have hpmem : p ∈ s.projects := narrowCandidates_subset tab s.projects now p hpnarrow
            apply scoreTabForProject_le_nine_half tab p _ now (hproj p hpmem)
            intro c hc rt hrt
            have hcpure : c = updateContextPure (getTabsByWindow s windowId) windowId tab now :=
              (Option.some.inj hc).symm
            subst hcpure
            apply updateContextPure_weight_bounds _ _ _ _ _ rt hrt
            intro tb htb
            exact htabs tb (List.mem_filter.mp htb).1
          constructor
          · intro hor
            rcases hor with h | h
            · split_ifs at h
            · split_ifs at h
          · intro _
            exact ⟨bm, rfl, rfl, h05, hscore⟩
        · rw [if_neg h05]
          constructor
          · intro _
            norm_num
          · intro hor
            rcases hor with h | h
            · exact absurd h (by simp)
            · exact absurd h (by simp)

theorem ctxB_eval : updateContextPure (getTabsByWindow stateB 1) 1 tabA nowA = ctxB := by
  have hwin : getTabsByWindow stateB 1 = [] := rfl
  rw [hwin, updateContextPure]
  simp [ctxB, tabA]

theorem bmB_score_eval :
    (scoreTabForProject defaultMatcherConfig tabA projA (some ctxB) nowA).score = 3 := by
  have hh : scoreHostMatch tabA projA = 1 := by
    rw [scoreHostMatch]
    rw [show projA.rules
      = [({ type := RuleType.host, value := "github.com", weight := 1.0 } : ProjectRule)]
      from rfl]
    rw [hostMatchLoop, if_pos ⟨rfl, rfl⟩]
    norm_num
  have hpath : scorePathMatch tabA projA = 0 := by
    simp [scorePathMatch, projA, tabA]
  have htok : scoreTokenSimilarity tabA projA = 0 := by
    simp [scoreTokenSimilarity, weightedTokenSimilarity, cosineSimilarity,
      jaccardSimilarity, projA, emptyCentroid]
  have hchain : scoreChainProximity tabA projA (some ctxB) = 0 := by
    simp [scoreChainProximity, ctxB]
  have hrec : scoreRecencyBoost projA (some ctxB) nowA = 0 := by
    rw [scoreRecencyBoost]
    have hactive : ctxB.activeProjectId = none := rfl
    rw [hactive, if_neg (by simp)]
    norm_num [projA, nowA]
  rw [scoreTabForProject]
  simp only [hh, hpath, htok, hchain, hrec, defaultMatcherConfig]
  push_cast
  ring

theorem narrowB_eval : narrowCandidates tabA [projA] nowA = [projA] := by
  have hpred : sameHostPred tabA projA = true := by
    simp [sameHostPred, projA, tabA]
  rw [narrowCandidates_stage1 tabA [projA] nowA ⟨projA, List.mem_singleton_self projA, hpred⟩]
  simp [hpred]

theorem bmB_eval :
    getBestMatch defaultMatcherConfig tabA stateB.projects (some ctxB) nowA
      = some (scoreTabForProject defaultMatcherConfig tabA projA (some ctxB) nowA) := by
  rw [getBestMatch]
  rw [show stateB.projects = [projA] from rfl]
  rw [narrowB_eval, scoreAllProjects]
  simp only [List.map_cons, List.map_nil, List.filter_cons, List.filter_nil]
  rw [bmB_score_eval]
  norm_num [defaultMatcherConfig]

theorem assignB_fst_eval :
    (assignTabToProject stateB tabA 1 nowA idsA).1 =
      { tabId := tabA.tabId
        projectId := (scoreTabForProject defaultMatcherConfig tabA projA (some ctxB) nowA).projectId
        subprojectId :=
          (scoreTabForProject defaultMatcherConfig tabA projA (some ctxB) nowA).subprojectId
        confidence := (scoreTabForProject defaultMatcherConfig tabA projA (some ctxB) nowA).score
        method := AssignMethod.deterministic } := by
  rw [assignTabToProject]
  rw [if_neg (by simp [tabA, truthyStr])]
  rw [if_neg (by simp [stateB, projA])]
  simp only [updateContextState, ctxB_eval]
  rw [bmB_eval]
  simp only [bmB_score_eval]
  rw [if_pos (by norm_num : (0.5 : ℝ) < 3)]
  simp only [if_pos (by norm_num : (0.8 : ℝ) < 3)]

/-- Witness for claim C10 at a concrete input: with one exact-host-rule
project in the store, the assignment method is deterministic while the
reported confidence is the raw total score 3.0, strictly above 1. -/
theorem assignment_confidence_witness :
    (∀ p ∈ stateB.projects, projectWF p) ∧
    (∀ t ∈ stateB.tabs, 0 ≤ t.activeScore ∧ t.lastActiveAt ≤ nowA) ∧
    (assignTabToProject stateB tabA 1 nowA idsA).1.method = AssignMethod.deterministic ∧
    (assignTabToProject stateB tabA 1 nowA idsA).1.confidence = 3 ∧
    (1 : ℝ) < (assignTabToProject stateB tabA 1 nowA idsA).1.confidence ∧
    (∃ bm, getBestMatch defaultMatcherConfig tabA stateB.projects
        (some (updateContextPure (getTabsByWindow stateB 1) 1 tabA nowA)) nowA = some bm ∧
      (assignTabToProject stateB tabA 1 nowA idsA).1.confidence = bm.score ∧
      (0.5 : ℝ) < bm.score ∧ bm.score ≤ 9.5) := by
  have hproj : ∀ p ∈ stateB.projects, projectWF p := by
    intro p hp
    rw [show stateB.projects = [projA] from rfl, List.mem_singleton] at hp
    subst hp
    refine ⟨⟨?_, ?_⟩, ?_⟩
    · simp [projA, emptyCentroid]
    · intro q hq
      simp [projA, emptyCentroid] at hq
    · intro sp hsp
      simp [projA] at hsp
  have htabs : ∀ t ∈ stateB.tabs, 0 ≤ t.activeScore ∧ t.lastActiveAt ≤ nowA := by
    intro t ht
    simp [stateB] at ht
  have hmethod : (assignTabToProject stateB tabA 1 nowA idsA).1.method
      = AssignMethod.deterministic := by
    rw [assignB_fst_eval]
  have hconf : (assignTabToProject stateB tabA 1 nowA idsA).1.confidence = 3 := by
    rw [assignB_fst_eval]
    exact bmB_score_eval
  refine ⟨hproj, htabs, hmethod, hconf, ?_, ?_⟩
  · rw [hconf]
    norm_num
  · exact (assignment_confidence stateB tabA 1 nowA idsA hproj htabs).2 (Or.inl hmethod)

end ProjectRail
